import Mathlib

/-!
# Shallow embedding of the whatsapp-service session manager

This file embeds the session-lifecycle core of the `whatsapp-service`
repository (`src/whatsapp/client.js`, `src/whatsapp/sessions.js`,
`src/api/routes.js`) into Lean and proves the spec's claims about it.

Modelling choices:
* The external `whatsapp-web.js` client is an opaque collaborator; its
  send operation is modelled as a `transport` oracle argument
  (`String → String → Except String TransportMessage`), and the outcome of
  a background `initialize()` as an `Except String Unit` argument.
* The filesystem under `./storage/sessions` is a `Disk`: a flag for the
  root directory's existence plus the list of its entries.
* The registry's JS `Map` is an association list `List (Nat × WhatsAppClient)`
  read through `List.lookup`, mirroring `Map.get`/`Map.has`/`Map.delete`.
* JS exceptions become `Except` values; a `try`/`catch` that swallows an
  error becomes a total function.
-/

set_option autoImplicit false

namespace WhatsAppService

/-- A receipt from the underlying transport: `sentMessage.id.id` and
`sentMessage.timestamp` in `client.js`. -/
structure TransportMessage where
  messageId : String
  timestamp : Nat
deriving DecidableEq

/-- The value returned by `WhatsAppClient.sendMessage` on success
(`{ success: true, messageId, timestamp }`). -/
structure SendResult where
  success : Bool
  messageId : String
  timestamp : Nat
deriving DecidableEq

/-- Errors a send can surface to its caller: the `NotReady` guard throw
(`'WhatsApp client is not ready'`) or a propagated transport error. -/
inductive SendError where
  | notReady
  | transport (msg : String)
deriving DecidableEq

/-- The message carried by a thrown `SendError` (JS `error.message`). -/
def SendError.message : SendError → String
  | .notReady => "WhatsApp client is not ready"
  | .transport m => m

/-- Errors `SessionManager.createSession` can surface: the
`Session already exists` throw, or a propagated `initialize()` failure. -/
inductive CreateError where
  | alreadyExists
  | initFailed (msg : String)
deriving DecidableEq

/-- The mutable state of one `WhatsAppClient` instance (`client.js`
constructor fields).  `clientLive` stands for `this.client !== null`. -/
structure WhatsAppClient where
  userId : Nat
  webhookUrl : String
  clientLive : Bool
  qrCode : Option String
  isReady : Bool
  initializationError : Option String
deriving DecidableEq

/-- Constructor `new WhatsAppClient(userId, url)`: all connection state starts empty. -/
def WhatsAppClient.new (userId : Nat) (webhookUrl : String) : WhatsAppClient :=
  { userId := userId
    webhookUrl := webhookUrl
    clientLive := false
    qrCode := none
    isReady := false
    initializationError := none }

/-- One entry of the `./storage/sessions` directory. -/
structure DirEntry where
  name : String
  isDir : Bool
deriving DecidableEq

/-- The persisted-session storage: whether `./storage/sessions` exists and,
if so, its entries. -/
structure Disk where
  rootExists : Bool
  entries : List DirEntry
deriving DecidableEq

/-- The directory name `session-user-${userId}` used by `LocalAuth` with
`clientId` = `user-${userId}` (see `clearSessionFiles` and
`getSessionPath` in `client.js`). -/
def sessionDirName (userId : Nat) : String :=
  "session-user-" ++ toString userId

/-- Method `WhatsAppClient.clearSessionFiles`: if the user's session directory
exists it is removed with `fs.rmSync`; errors are swallowed, so the
operation is total. -/
def clearSessionFiles (userId : Nat) (d : Disk) : Disk :=
  if d.rootExists && d.entries.any (fun e => e.name == sessionDirName userId) then
    { d with entries := d.entries.filter (fun e => !(e.name == sessionDirName userId)) }
  else d

/-- Substring test over character lists, the semantics of JS
`String.prototype.includes`. -/
def hasSub (pat : List Char) : List Char → Bool
  | [] => pat.isEmpty
  | c :: cs => pat.isPrefixOf (c :: cs) || hasSub pat cs

/-- The test `to.includes('@c.us')` in `client.js` (`to` is a keyword in Lean, so the
JS parameter `to` is called `recipient` throughout). -/
def hasChatSuffix (recipient : String) : Bool :=
  hasSub "@c.us".data recipient.data

/-- The normalization `const chatId = to.includes('@c.us') ? to : to + '@c.us'`. -/
def formatChatId (recipient : String) : String :=
  if hasChatSuffix recipient then recipient else recipient ++ "@c.us"

/-- Method `WhatsAppClient.sendMessage(to, message)`.  Returns the caller-visible
outcome together with the list of transport calls actually performed
(`(chatId, message)` pairs), so that "never attempts the transport call"
is expressible. -/
def WhatsAppClient.sendMessage (c : WhatsAppClient)
    (transport : String → String → Except String TransportMessage)
    (recipient message : String) :
    Except SendError SendResult × List (String × String) :=
  if c.isReady then
    let chatId := formatChatId recipient
    match transport chatId message with
    | .ok sent => (.ok ⟨true, sent.messageId, sent.timestamp⟩, [(chatId, message)])
    | .error e => (.error (.transport e), [(chatId, message)])
  else
    (.error .notReady, [])

/-- Method `WhatsAppClient.disconnect(clearSession)`: resets `isReady`, `qrCode`
and `initializationError`, tears down any live client (logout/destroy
failures swallowed, so invisible here), and when `clearSession` is set
deletes the session files from disk.  The field resets at the top of
`disconnect` are factored into `resetConnection`. -/
def WhatsAppClient.resetConnection (c : WhatsAppClient) : WhatsAppClient :=
  { c with isReady := false, qrCode := none,
           initializationError := none, clientLive := false }

def WhatsAppClient.disconnect (c : WhatsAppClient) (d : Disk)
    (clearSession : Bool) : WhatsAppClient × Disk :=
  if clearSession then (c.resetConnection, clearSessionFiles c.userId d)
  else (c.resetConnection, d)

/-- The outcome the webhook HTTP POST would have (success, or failure
including timeout). -/
inductive WebhookDelivery where
  | ok
  | failed (msg : String)
deriving DecidableEq

/-- Method `WhatsAppClient.sendWebhook(endpoint, data)`: the POST is wrapped in
`try`/`catch`; a failure is logged and not rethrown.  The result pairs the
caller-visible outcome with the log lines produced. -/
def sendWebhook (endpoint : String) (delivery : WebhookDelivery) :
    Except String Unit × List String :=
  match delivery with
  | .ok => (.ok (), [])
  | .failed msg =>
      (.ok (), ["Error sending webhook to " ++ endpoint ++ ": " ++ msg])

/-- The registry (`SessionManager` in `sessions.js`): a `Map` from userId
to `WhatsAppClient`, plus the webhook base URL passed to new clients. -/
structure SessionManager where
  sessions : List (Nat × WhatsAppClient)
  springBootUrl : String
deriving DecidableEq

/-- Lookup `this.sessions.get(userId)`. -/
def SessionManager.getSession (m : SessionManager) (u : Nat) :
    Option WhatsAppClient :=
  m.sessions.lookup u

/-- Membership `this.sessions.has(userId)`. -/
def SessionManager.hasSession (m : SessionManager) (u : Nat) : Bool :=
  (m.sessions.lookup u).isSome

/-- The `{ exists, connected }` record returned by `getSessionStatus`
(fields named after the route layer's `sessionExists`/`connected`, since
`exists` is a Lean keyword). -/
structure SessionStatus where
  sessionExists : Bool
  connected : Bool
deriving DecidableEq

/-- Method `SessionManager.getSessionStatus(userId)`. -/
def SessionManager.getSessionStatus (m : SessionManager) (u : Nat) :
    SessionStatus :=
  match m.sessions.lookup u with
  | none => ⟨false, false⟩
  | some c => ⟨true, c.isReady⟩

/-- Method `SessionManager.createSession(userId)`.  The registry mutation and the
caller-visible outcome are both returned: the JS method first throws on a
tracked id (map untouched), otherwise `set`s the new client into the map
and only then awaits `initialize()` — whose outcome is the `initResult`
argument — with no rollback on failure. -/
def SessionManager.createSession (m : SessionManager) (u : Nat)
    (initResult : Except String Unit) :
    Except CreateError Unit × SessionManager :=
  if m.hasSession u then
    (.error .alreadyExists, m)
  else
    let client := WhatsAppClient.new u m.springBootUrl
    let m' : SessionManager := { m with sessions := (u, client) :: m.sessions }
    match initResult with
    | .ok _ => (.ok (), m')
    | .error e => (.error (.initFailed e), m')

/-- Method `SessionManager.destroySession(userId, clearSession)`: a tracked
session is disconnected then deleted from the map; an untracked id with
`clearSession` set still clears the on-disk files via a temporary client.
The method never throws. -/
def SessionManager.destroySession (m : SessionManager) (d : Disk) (u : Nat)
    (clearSession : Bool) : SessionManager × Disk :=
  match m.sessions.lookup u with
  | some c =>
      let d' := (c.disconnect d clearSession).2
      ({ m with sessions := m.sessions.filter (fun p => !(p.1 == u)) }, d')
  | none =>
      if clearSession then
        (m, clearSessionFiles u d)
      else
        (m, d)

/-! ### The restoration scan (`restoreSessions`)

`sessions.js` filters directory entries whose name starts with
`session-user-`, then applies the regex `/session-user-(\d+)/` and
`parseInt` on the first capture.  The regex search is leftmost-match:
the earliest position where the literal `session-user-` is immediately
followed by at least one digit wins, and `(\d+)` captures the maximal
digit run there. -/

/-- The characters of the literal `session-user-`. -/
def sessionDirPat : List Char := "session-user-".data

/-- The maximal digit run at the head of a character list (what `(\d+)`
captures once anchored). -/
def leadingDigits (l : List Char) : List Char :=
  l.takeWhile Char.isDigit

/-- Try the regex `session-user-(\d+)` anchored at the head of `l`: the
literal must be a prefix and at least one digit must follow. -/
def sessionMatchAt (l : List Char) : Option (List Char) :=
  if sessionDirPat.isPrefixOf l then
    if (leadingDigits (l.drop sessionDirPat.length)).isEmpty then none
    else some (leadingDigits (l.drop sessionDirPat.length))
  else none

/-- Leftmost match of `session-user-(\d+)` in `l`: the capture of the
first position where the anchored match succeeds. -/
def sessionMatch : List Char → Option (List Char)
  | [] => none
  | c :: cs =>
      match sessionMatchAt (c :: cs) with
      | some ds => some ds
      | none => sessionMatch cs

/-- Decimal value of a digit run (`parseInt` on the capture, which is all
digits). -/
def digitsToNat (l : List Char) : Nat :=
  l.foldl (fun n c => n * 10 + (c.toNat - 48)) 0

/-- The parse `name.match(/session-user-(\d+)/)` followed by `parseInt(match[1])`:
the userId the restoration scan would derive from a directory name, or
`none` when the regex does not match. -/
def discoverUserId (name : String) : Option Nat :=
  (sessionMatch name.data).map digitsToNat

/-- The list of userIds `restoreSessions` discovers from the sessions
directory: directory entries whose name starts with `session-user-`,
mapped through the regex parse, nulls filtered out. -/
def discoveredIds (d : Disk) : List Nat :=
  (d.entries.filter
      (fun e => e.isDir && sessionDirPat.isPrefixOf e.name.data)).filterMap
    (fun e => discoverUserId e.name)

/-- Method `SessionManager.restoreSessions()`: if the root is missing it is
created and nothing is restored; otherwise every discovered id is passed
to `createSession`, each failure caught and logged so restoration
continues (`init` gives the `initialize()` outcome per user). -/
def SessionManager.restoreSessions (m : SessionManager) (d : Disk)
    (init : Nat → Except String Unit) : SessionManager × Disk :=
  if d.rootExists then
    ((discoveredIds d).foldl (fun acc u => (acc.createSession u (init u)).2) m, d)
  else
    (m, { rootExists := true, entries := [] })

/-! ### Registry operation traces

To state "`hasSession` stays true until `destroySession` completes", the
registry-mutating operations are packaged as a small operation language. -/

/-- A registry-mutating operation (the three mutators of `sessions.js`). -/
inductive Op where
  | create (u : Nat) (initResult : Except String Unit)
  | destroy (u : Nat) (clearSession : Bool)
  | restore (init : Nat → Except String Unit)

/-- Whether an operation is `destroySession` for the given user. -/
def Op.isDestroyOf : Op → Nat → Bool
  | .destroy v _, u => v == u
  | _, _ => false

/-- Apply one registry operation to the manager/disk pair. -/
def applyOp : SessionManager × Disk → Op → SessionManager × Disk
  | (m, d), .create u r => ((m.createSession u r).2, d)
  | (m, d), .destroy u c => m.destroySession d u c
  | (m, d), .restore init => m.restoreSessions d init

/-- Apply a sequence of registry operations. -/
def applyOps (s : SessionManager × Disk) (ops : List Op) :
    SessionManager × Disk :=
  ops.foldl applyOp s

/-! ### The `/send-bulk` route handler loop (`routes.js`) -/

/-- One element of the route's `messages` array (`{to, message}`; `to` is
a Lean keyword, so the field is `recipient`). -/
structure BulkItem where
  recipient : String
  message : String
deriving DecidableEq

/-- One element of the route's `results` array: either
`{to, success: true, messageId, timestamp}` or
`{to, success: false, error}`. -/
structure BulkResult where
  recipient : String
  success : Bool
  messageId : Option String
  timestamp : Option Nat
  error : Option String
deriving DecidableEq

/-- The `for (const msg of messages)` loop of the `/send-bulk` handler:
each `client.sendMessage` is tried individually, a failure is recorded
(`error.message`) and the loop continues.  The transport oracle takes the
send's position so distinct attempts may behave differently; the
inter-message delay has no observable effect here. -/
def bulkSendLoop (c : WhatsAppClient)
    (transport : Nat → String → String → Except String TransportMessage) :
    Nat → List BulkItem → List BulkResult
  | _, [] => []
  | i, item :: rest =>
      (match (c.sendMessage (transport i) item.recipient item.message).1 with
        | .ok r =>
            BulkResult.mk item.recipient true (some r.messageId)
              (some r.timestamp) none
        | .error e =>
            BulkResult.mk item.recipient false none none (some e.message)) ::
      bulkSendLoop c transport (i + 1) rest

/-- The `results` array the `/send-bulk` handler responds with (after its
up-front `isReady` check has passed). -/
def sendBulk (c : WhatsAppClient)
    (transport : Nat → String → String → Except String TransportMessage)
    (messages : List BulkItem) : List BulkResult :=
  bulkSendLoop c transport 0 messages

/-! ### Claim-side and declarative forms of the restoration parse -/

/-- The first maximal digit run anywhere in a character list. -/
def firstDigitRun : List Char → Option (List Char)
  | [] => none
  | c :: cs =>
      if c.isDigit then some (c :: leadingDigits cs) else firstDigitRun cs

/-- The restoration rule exactly as claim C10 words it: a name is restored
when it starts with `session-user-` and contains a digit sequence anywhere
after that prefix, the restored id being the integer parsed from the first
such digit sequence. -/
def claimDiscoverUserId (name : String) : Option Nat :=
  if sessionDirPat.isPrefixOf name.data then
    (firstDigitRun (name.data.drop sessionDirPat.length)).map digitsToNat
  else none

/-- The literal `session-user-` occurs at position `i` of `l` immediately
followed by a digit: the declarative form of one anchored regex match. -/
def sessionOccursAt (l : List Char) (i : Nat) : Prop :=
  sessionDirPat <+: l.drop i
    ∧ ∃ c, (l.drop (i + sessionDirPat.length)).head? = some c
        ∧ c.isDigit = true

/-! ## Basic lemmas about the registry's association list -/

theorem lookup_cons {β : Type} (k : Nat) (b : β) (l : List (Nat × β)) (u : Nat) :
    ((k, b) :: l).lookup u = if u = k then some b else l.lookup u := by
  by_cases h : u = k
  · have hb : (u == k) = true := by simp [h]
    simp [List.lookup, hb, h]
  · have hb : (u == k) = false := by simp [h]
    simp [List.lookup, hb, h]

theorem lookup_filter_of_ne {β : Type} (l : List (Nat × β)) (u v : Nat)
    (h : u ≠ v) :
    (l.filter (fun p => !(p.1 == v))).lookup u = l.lookup u := by
  induction l with
  | nil => rfl
  | cons p l ih =>
      obtain ⟨k, b⟩ := p
      by_cases hv : k = v
      · subst hv
        simp [List.filter_cons, lookup_cons, ih, h]
      · simp only [List.filter_cons]
        have hkeep : ((!(k == v)) = true) := by simp [hv]
        rw [hkeep]
        simp only [if_true, lookup_cons, ih]

theorem lookup_filter_self {β : Type} (l : List (Nat × β)) (u : Nat) :
    (l.filter (fun p => !(p.1 == u))).lookup u = none := by
  induction l with
  | nil => rfl
  | cons p l ih =>
      obtain ⟨k, b⟩ := p
      by_cases hk : k = u
      · subst hk
        simp [List.filter_cons, ih]
      · simp only [List.filter_cons]
        have hkeep : ((!(k == u)) = true) := by simp [hk]
        rw [hkeep]
        simp only [if_true, lookup_cons, if_neg (Ne.symm hk)]
        exact ih

theorem lookup_mem {β : Type} (l : List (Nat × β)) (u : Nat) (c : β)
    (h : l.lookup u = some c) : (u, c) ∈ l := by
  induction l with
  | nil => simp [List.lookup] at h
  | cons p l ih =>
      obtain ⟨k, b⟩ := p
      rw [lookup_cons] at h
      by_cases hk : u = k
      · rw [if_pos hk] at h
        cases h
        subst hk
        exact List.mem_cons_self _ _
      · rw [if_neg hk] at h
        exact List.mem_cons_of_mem _ (ih h)

/-- The field `getSessionStatus(...).exists` agrees with `hasSession`. -/
theorem getSessionStatus_sessionExists (m : SessionManager) (u : Nat) :
    (m.getSessionStatus u).sessionExists = m.hasSession u := by
  unfold SessionManager.getSessionStatus SessionManager.hasSession
  cases m.sessions.lookup u <;> rfl

/-! ## Lemmas about `createSession`, `destroySession`, traces -/

/-- The registry after `createSession`: unchanged on a tracked id,
otherwise the new client is prepended. -/
theorem createSession_snd (m : SessionManager) (u : Nat)
    (r : Except String Unit) :
    (m.createSession u r).2 =
      if m.hasSession u then m
      else { m with
             sessions := (u, WhatsAppClient.new u m.springBootUrl)
               :: m.sessions } := by
  unfold SessionManager.createSession
  by_cases h : m.hasSession u
  · simp [h]
  · rw [Bool.not_eq_true] at h
    rw [h]
    cases r <;> simp

theorem hasSession_createSession_self (m : SessionManager) (u : Nat)
    (r : Except String Unit) (h : m.hasSession u = false) :
    ((m.createSession u r).2).hasSession u = true := by
  rw [createSession_snd, h]
  simp [SessionManager.hasSession, lookup_cons]

theorem hasSession_createSession_mono (m : SessionManager) (v : Nat)
    (r : Except String Unit) (u : Nat) (h : m.hasSession u = true) :
    ((m.createSession v r).2).hasSession u = true := by
  rw [createSession_snd]
  by_cases hv : m.hasSession v
  · rw [if_pos hv]; exact h
  · rw [if_neg hv]
    show ((((v, WhatsAppClient.new v m.springBootUrl)
        :: m.sessions).lookup u)).isSome = true
    rw [lookup_cons]
    by_cases huv : u = v
    · simp [huv]
    · rw [if_neg huv]
      exact h

theorem hasSession_createSession_of_ne (m : SessionManager) (v : Nat)
    (r : Except String Unit) (u : Nat) (h : u ≠ v) :
    ((m.createSession v r).2).hasSession u = m.hasSession u := by
  rw [createSession_snd]
  by_cases hv : m.hasSession v
  · rw [if_pos hv]
  · rw [if_neg hv]
    show ((((v, WhatsAppClient.new v m.springBootUrl)
        :: m.sessions).lookup u)).isSome = m.hasSession u
    rw [lookup_cons, if_neg h]
    rfl

theorem hasSession_destroySession_self (m : SessionManager) (d : Disk)
    (u : Nat) (clear : Bool) :
    ((m.destroySession d u clear).1).hasSession u = false := by
  unfold SessionManager.destroySession
  cases hl : m.sessions.lookup u with
  | some c => simp [SessionManager.hasSession, lookup_filter_self]
  | none =>
      cases clear <;> simp [SessionManager.hasSession, hl]

theorem hasSession_destroySession_of_ne (m : SessionManager) (d : Disk)
    (v : Nat) (clear : Bool) (u : Nat) (h : u ≠ v) :
    ((m.destroySession d v clear).1).hasSession u = m.hasSession u := by
  unfold SessionManager.destroySession
  cases hl : m.sessions.lookup v with
  | some c => simp [SessionManager.hasSession, lookup_filter_of_ne _ _ _ h]
  | none => cases clear <;> rfl

theorem hasSession_foldl_create (init : Nat → Except String Unit)
    (ids : List Nat) (u : Nat) :
    ∀ m : SessionManager, m.hasSession u = true →
      (ids.foldl (fun acc v => (acc.createSession v (init v)).2) m).hasSession u
        = true := by
  induction ids with
  | nil => intro m h; exact h
  | cons v ids ih =>
      intro m h
      exact ih _ (hasSession_createSession_mono m v (init v) u h)

theorem hasSession_foldl_create_of_not_mem (init : Nat → Except String Unit)
    (ids : List Nat) (u : Nat) (hmem : u ∉ ids) :
    ∀ m : SessionManager, m.hasSession u = false →
      (ids.foldl (fun acc v => (acc.createSession v (init v)).2) m).hasSession u
        = false := by
  induction ids with
  | nil => intro m h; exact h
  | cons v ids ih =>
      intro m h
      have hne : u ≠ v := fun hc => hmem (hc ▸ List.mem_cons_self v ids)
      have hmem' : u ∉ ids := fun hc => hmem (List.mem_cons_of_mem v hc)
      exact ih hmem' _
        ((hasSession_createSession_of_ne m v (init v) u hne).trans h)

theorem hasSession_restoreSessions (m : SessionManager) (d : Disk)
    (init : Nat → Except String Unit) (u : Nat) (h : m.hasSession u = true) :
    ((m.restoreSessions d init).1).hasSession u = true := by
  unfold SessionManager.restoreSessions
  by_cases hr : d.rootExists
  · rw [if_pos hr]
    exact hasSession_foldl_create init (discoveredIds d) u m h
  · rw [if_neg hr]
    exact h

theorem hasSession_applyOp (s : SessionManager × Disk) (op : Op) (u : Nat)
    (h : s.1.hasSession u = true) (hop : op.isDestroyOf u = false) :
    (applyOp s op).1.hasSession u = true := by
  obtain ⟨m, d⟩ := s
  cases op with
  | create v r => exact hasSession_createSession_mono m v r u h
  | destroy v c =>
      have hne : u ≠ v := by
        intro hc
        subst hc
        simp [Op.isDestroyOf] at hop
      rw [show applyOp (m, d) (.destroy v c) = m.destroySession d v c from rfl]
      rw [hasSession_destroySession_of_ne m d v c u hne]
      exact h
  | restore init => exact hasSession_restoreSessions m d init u h

theorem hasSession_applyOps (ops : List Op) (u : Nat) :
    ∀ s : SessionManager × Disk, s.1.hasSession u = true →
      (∀ op ∈ ops, op.isDestroyOf u = false) →
      (applyOps s ops).1.hasSession u = true := by
  induction ops with
  | nil => intro s h _; exact h
  | cons op ops ih =>
      intro s h hops
      exact ih _ (hasSession_applyOp s op u h (hops op (List.mem_cons_self _ _)))
        (fun o ho => hops o (List.mem_cons_of_mem _ ho))

/-! ## Lemmas about the disk -/

theorem clearSessionFiles_rootExists (u : Nat) (d : Disk) :
    (clearSessionFiles u d).rootExists = d.rootExists := by
  unfold clearSessionFiles
  split <;> rfl

theorem clearSessionFiles_idem (u : Nat) (d : Disk) :
    clearSessionFiles u (clearSessionFiles u d) = clearSessionFiles u d := by
  unfold clearSessionFiles
  split
  · next hcond =>
      have hany : ((d.entries.filter
          (fun e => !(e.name == sessionDirName u))).any
            (fun e => e.name == sessionDirName u)) = false := by
        rw [List.any_eq_false]
        intro e he
        have := (List.mem_filter.mp he).2
        simpa using this
      simp [hany]
  · rfl

/-! ## Claim theorems (first group) -/

/-- C2: for every recipient and body, if the client's ready flag is false
then `sendMessage` fails with `NotReady` and performs no transport call. -/
theorem C2_sendMessage_notReady (c : WhatsAppClient)
    (transport : String → String → Except String TransportMessage)
    (recipient message : String) (h : c.isReady = false) :
    c.sendMessage transport recipient message
      = (Except.error SendError.notReady, []) := by
  unfold WhatsAppClient.sendMessage
  rw [h]
  simp

/-- Witness for C2 at a freshly constructed (hence not-ready) client. -/
theorem C2_witness :
    (WhatsAppClient.new 7 "http://backend").sendMessage
        (fun _ _ => Except.ok ⟨"mid", 1⟩) "123456" "hello"
      = (Except.error SendError.notReady, []) :=
  C2_sendMessage_notReady (WhatsAppClient.new 7 "http://backend")
    (fun _ _ => Except.ok ⟨"mid", 1⟩) "123456" "hello" rfl

/-- C3: on a ready client, `sendMessage` sends to the recipient with the
`@c.us` suffix appended when absent (and unchanged when present: presence
is the JS `includes` substring test the code performs), returns the
transport's message id and timestamp on success, and propagates the
transport error otherwise. -/
theorem C3_sendMessage_normalizes (c : WhatsAppClient)
    (transport : String → String → Except String TransportMessage)
    (recipient message : String) (h : c.isReady = true) :
    (hasChatSuffix recipient = true →
      (c.sendMessage transport recipient message).2 = [(recipient, message)])
    ∧ (hasChatSuffix recipient = false →
      (c.sendMessage transport recipient message).2
        = [(recipient ++ "@c.us", message)])
    ∧ (∀ t, transport (formatChatId recipient) message = Except.ok t →
      (c.sendMessage transport recipient message).1
        = Except.ok ⟨true, t.messageId, t.timestamp⟩)
    ∧ (∀ e, transport (formatChatId recipient) message = Except.error e →
      (c.sendMessage transport recipient message).1
        = Except.error (SendError.transport e)) := by
  unfold WhatsAppClient.sendMessage
  rw [h]
  refine ⟨?_, ?_, ?_, ?_⟩
  · intro hs
    unfold formatChatId
    rw [hs]
    simp only [if_true]
    cases transport recipient message <;> simp
  · intro hs
    unfold formatChatId
    rw [hs]
    simp only [Bool.false_eq_true, if_false]
    cases transport (recipient ++ "@c.us") message <;> simp
  · intro t ht
    simp [ht]
  · intro e he
    simp [he]

/-- Witness for C3: a ready client, a recipient without the suffix, and a
succeeding transport. -/
theorem C3_witness :
    (({ WhatsAppClient.new 7 "http://backend" with isReady := true }
        : WhatsAppClient).sendMessage
        (fun _ _ => Except.ok ⟨"m1", 42⟩) "123456" "hi").2
      = [("123456" ++ "@c.us", "hi")]
    ∧ (({ WhatsAppClient.new 7 "http://backend" with isReady := true }
        : WhatsAppClient).sendMessage
        (fun _ _ => Except.ok ⟨"m1", 42⟩) "123456" "hi").1
      = Except.ok ⟨true, "m1", 42⟩ := by
  have h := C3_sendMessage_normalizes
    ({ WhatsAppClient.new 7 "http://backend" with isReady := true })
    (fun _ _ => Except.ok ⟨"m1", 42⟩) "123456" "hi" rfl
  exact ⟨h.2.1 (by decide), h.2.2.1 ⟨"m1", 42⟩ rfl⟩

/-- C7: `disconnect` always leaves the session disconnected — ready flag
down, pending code and last error cleared — and running it again with the
same flag changes nothing (idempotence, including the disk). -/
theorem C7_disconnect_idempotent (c : WhatsAppClient) (d : Disk)
    (clear : Bool) :
    ((c.disconnect d clear).1.isReady = false
      ∧ (c.disconnect d clear).1.qrCode = none
      ∧ (c.disconnect d clear).1.initializationError = none)
    ∧ (c.disconnect d clear).1.disconnect (c.disconnect d clear).2 clear
        = c.disconnect d clear := by
  unfold WhatsAppClient.disconnect
  cases clear with
  | false => exact ⟨⟨rfl, rfl, rfl⟩, rfl⟩
  | true =>
      refine ⟨⟨rfl, rfl, rfl⟩, ?_⟩
      simp only [if_true]
      have huid : c.resetConnection.userId = c.userId := rfl
      have hreset : c.resetConnection.resetConnection = c.resetConnection := rfl
      rw [huid, hreset, clearSessionFiles_idem]

/-- C8: a webhook delivery failure (timeout included) is swallowed:
`sendWebhook` reports success to its caller for every delivery outcome, so
failures never propagate into the session's event handling. -/
theorem C8_sendWebhook_never_throws (endpoint : String)
    (delivery : WebhookDelivery) :
    (sendWebhook endpoint delivery).1 = Except.ok () := by
  cases delivery <;> rfl

/-- C1: `createSession(userId)` fails with `AlreadyExists` exactly when the
id is already tracked, leaving the registry unchanged in that case; after a
successful `createSession(userId)`, `hasSession(userId)` and
`getSessionStatus(userId).exists` stay true across any sequence of registry
operations that contains no `destroySession(userId)`, and a
`destroySession(userId)` makes `hasSession(userId)` false. -/
theorem C1_createSession_contract (m : SessionManager) (u : Nat)
    (r : Except String Unit) :
    ((m.createSession u r).1 = Except.error CreateError.alreadyExists
      ↔ m.hasSession u = true)
    ∧ (m.hasSession u = true → (m.createSession u r).2 = m)
    ∧ ((m.createSession u r).1 = Except.ok () →
        ∀ (d : Disk) (ops : List Op),
          (∀ op ∈ ops, op.isDestroyOf u = false) →
          (applyOps ((m.createSession u r).2, d) ops).1.hasSession u = true
          ∧ ((applyOps ((m.createSession u r).2, d) ops).1.getSessionStatus u).sessionExists
              = true)
    ∧ (∀ (d : Disk) (clear : Bool),
        (((m.createSession u r).2).destroySession d u clear).1.hasSession u
          = false) := by
  refine ⟨?_, ?_, ?_, ?_⟩
  · unfold SessionManager.createSession
    by_cases h : m.hasSession u
    · simp [h]
    · rw [Bool.not_eq_true] at h
      rw [h]
      simp only [Bool.false_eq_true, if_false]
      cases r <;> simp
  · intro h
    unfold SessionManager.createSession
    rw [h]
    simp
  · intro hok d ops hops
    have hnot : m.hasSession u = false := by
      by_contra hc
      rw [Bool.not_eq_false] at hc
      unfold SessionManager.createSession at hok
      rw [hc] at hok
      simp at hok
    have hstart : ((m.createSession u r).2).hasSession u = true :=
      hasSession_createSession_self m u r hnot
    have hall := hasSession_applyOps ops u ((m.createSession u r).2, d)
      hstart hops
    exact ⟨hall, (getSessionStatus_sessionExists _ u).trans hall⟩
  · intro d clear
    exact hasSession_destroySession_self _ d u clear

/-- Witness for C1 at a concrete run: create user 7 in an empty registry,
then create user 3 and destroy user 3; user 7 stays tracked. -/
theorem C1_witness :
    (applyOps (((SessionManager.mk [] "http://backend").createSession 7
          (Except.ok ())).2, Disk.mk true [])
        [Op.create 3 (Except.ok ()), Op.destroy 3 true]).1.hasSession 7
      = true := by
  have h := C1_createSession_contract (SessionManager.mk [] "http://backend")
    7 (Except.ok ())
  exact (h.2.2.1 rfl (Disk.mk true [])
    [Op.create 3 (Except.ok ()), Op.destroy 3 true]
    (by intro op hop; fin_cases hop <;> rfl)).1

/-- C9: `createSession` registers the session before awaiting
`initialize()` and does not roll back: when initialization fails, the
caller sees the failure, yet the id is tracked and a retry fails with
`AlreadyExists`. -/
theorem C9_createSession_no_rollback (m : SessionManager) (u : Nat)
    (e : String) (h : m.hasSession u = false) :
    (m.createSession u (Except.error e)).1
        = Except.error (CreateError.initFailed e)
    ∧ ((m.createSession u (Except.error e)).2).hasSession u = true
    ∧ ∀ r, (((m.createSession u (Except.error e)).2).createSession u r).1
        = Except.error CreateError.alreadyExists := by
  have hfst : ∀ (m' : SessionManager) (r : Except String Unit),
      m'.hasSession u = true →
      (m'.createSession u r).1 = Except.error CreateError.alreadyExists := by
    intro m' r hm
    unfold SessionManager.createSession
    rw [hm]
    simp
  refine ⟨?_, hasSession_createSession_self m u _ h, ?_⟩
  · unfold SessionManager.createSession
    rw [h]
    simp
  · intro r
    exact hfst _ r (hasSession_createSession_self m u (Except.error e) h)

/-- Witness for C9: initialization failure for user 7 in an empty registry
leaves 7 tracked and a retry rejected. -/
theorem C9_witness :
    ((SessionManager.mk [] "http://backend").createSession 7
        (Except.error "boot failed")).1
      = Except.error (CreateError.initFailed "boot failed")
    ∧ (((SessionManager.mk [] "http://backend").createSession 7
        (Except.error "boot failed")).2).hasSession 7 = true
    ∧ ((((SessionManager.mk [] "http://backend").createSession 7
        (Except.error "boot failed")).2).createSession 7 (Except.ok ())).1
      = Except.error CreateError.alreadyExists := by
  have h := C9_createSession_no_rollback (SessionManager.mk [] "http://backend")
    7 "boot failed" rfl
  exact ⟨h.1, h.2.1, h.2.2 (Except.ok ())⟩

/-! ## Lemmas for the `/send-bulk` loop -/

theorem bulkSendLoop_length (c : WhatsAppClient)
    (transport : Nat → String → String → Except String TransportMessage) :
    ∀ (k : Nat) (l : List BulkItem),
      (bulkSendLoop c transport k l).length = l.length := by
  intro k l
  induction l generalizing k with
  | nil => rfl
  | cons item rest ih => simp [bulkSendLoop, ih]

theorem sendMessage_fst_of_ready (c : WhatsAppClient)
    (transport : String → String → Except String TransportMessage)
    (recipient message : String) (h : c.isReady = true) :
    (c.sendMessage transport recipient message).1
      = match transport (formatChatId recipient) message with
        | .ok t => Except.ok ⟨true, t.messageId, t.timestamp⟩
        | .error e => Except.error (SendError.transport e) := by
  unfold WhatsAppClient.sendMessage
  rw [h]
  cases htr : transport (formatChatId recipient) message <;> simp [htr]

theorem bulkSendLoop_get (c : WhatsAppClient)
    (transport : Nat → String → String → Except String TransportMessage) :
    ∀ (l : List BulkItem) (k i : Nat) (hi : i < l.length)
      (hi2 : i < (bulkSendLoop c transport k l).length),
      (bulkSendLoop c transport k l).get ⟨i, hi2⟩
        = match (c.sendMessage (transport (k + i))
              (l.get ⟨i, hi⟩).recipient (l.get ⟨i, hi⟩).message).1 with
          | .ok r =>
              BulkResult.mk (l.get ⟨i, hi⟩).recipient true (some r.messageId)
                (some r.timestamp) none
          | .error e =>
              BulkResult.mk (l.get ⟨i, hi⟩).recipient false none none
                (some e.message) := by
  intro l
  induction l with
  | nil =>
      intro k i hi
      exact absurd hi (by simp)
  | cons item rest ih =>
      intro k i hi hi2
      cases i with
      | zero => rfl
      | succ j =>
          have hj : j < rest.length := Nat.lt_of_succ_lt_succ hi
          have hj2 : j < (bulkSendLoop c transport (k + 1) rest).length := by
            rw [bulkSendLoop_length]
            exact hj
          have hrec := ih (k + 1) j hj hj2
          have hk : k + 1 + j = k + (j + 1) := by omega
          rw [hk] at hrec
          exact hrec

/-- C4: over a connected session, `send-bulk` returns one result per input
message, in input order; an item whose transport call fails is marked
failed with that error, every other item is marked succeeded with its
receipt, and a failure never cuts the result list short (the loop-based
handler is total, so the overall call does not raise). -/
theorem C4_sendBulk_per_item (c : WhatsAppClient)
    (transport : Nat → String → String → Except String TransportMessage)
    (messages : List BulkItem) (h : c.isReady = true) :
    (sendBulk c transport messages).length = messages.length
    ∧ ∀ (i : Nat) (hi : i < messages.length)
        (hi2 : i < (sendBulk c transport messages).length),
        ((sendBulk c transport messages).get ⟨i, hi2⟩).recipient
            = (messages.get ⟨i, hi⟩).recipient
        ∧ (∀ t, transport i (formatChatId (messages.get ⟨i, hi⟩).recipient)
              (messages.get ⟨i, hi⟩).message = Except.ok t →
            (sendBulk c transport messages).get ⟨i, hi2⟩
              = BulkResult.mk (messages.get ⟨i, hi⟩).recipient true
                  (some t.messageId) (some t.timestamp) none)
        ∧ (∀ e, transport i (formatChatId (messages.get ⟨i, hi⟩).recipient)
              (messages.get ⟨i, hi⟩).message = Except.error e →
            (sendBulk c transport messages).get ⟨i, hi2⟩
              = BulkResult.mk (messages.get ⟨i, hi⟩).recipient false
                  none none (some e)) := by
  refine ⟨bulkSendLoop_length c transport 0 messages, ?_⟩
  intro i hi hi2
  unfold sendBulk
  have hget := bulkSendLoop_get c transport messages 0 i hi hi2
  rw [Nat.zero_add] at hget
  rw [sendMessage_fst_of_ready c (transport i) _ _ h] at hget
  refine ⟨?_, ?_, ?_⟩
  · rw [hget]
    cases transport i (formatChatId (messages.get ⟨i, hi⟩).recipient)
        (messages.get ⟨i, hi⟩).message <;> rfl
  · intro t ht
    rw [hget, ht]
  · intro e he
    rw [hget, he]
    rfl

/-- Witness for C4: three messages over a ready client whose transport
fails exactly on the second send. -/
theorem C4_witness :
    (sendBulk ({ WhatsAppClient.new 7 "http://backend" with isReady := true })
        (fun i _ _ => if i = 1 then Except.error "boom"
          else Except.ok ⟨"mid", 5⟩)
        [⟨"111", "a"⟩, ⟨"222", "b"⟩, ⟨"333", "c"⟩]).length = 3
    ∧ (sendBulk ({ WhatsAppClient.new 7 "http://backend" with isReady := true })
        (fun i _ _ => if i = 1 then Except.error "boom"
          else Except.ok ⟨"mid", 5⟩)
        [⟨"111", "a"⟩, ⟨"222", "b"⟩, ⟨"333", "c"⟩]).get
          ⟨1, by decide⟩
      = BulkResult.mk "222" false none none (some "boom") := by
  have h := C4_sendBulk_per_item
    ({ WhatsAppClient.new 7 "http://backend" with isReady := true })
    (fun i _ _ => if i = 1 then Except.error "boom" else Except.ok ⟨"mid", 5⟩)
    [⟨"111", "a"⟩, ⟨"222", "b"⟩, ⟨"333", "c"⟩] rfl
  refine ⟨h.1.trans rfl, ?_⟩
  exact (h.2 1 (by decide) (by decide)).2.2 "boom" rfl

/-! ## Lemmas for `destroySession` + disk clearing -/

theorem destroySession_of_untracked (m : SessionManager) (d : Disk) (u : Nat)
    (clear : Bool) (hl : m.sessions.lookup u = none) :
    m.destroySession d u clear
      = if clear then (m, clearSessionFiles u d) else (m, d) := by
  unfold SessionManager.destroySession
  rw [hl]

theorem destroySession_of_tracked (m : SessionManager) (d : Disk) (u : Nat)
    (clear : Bool) (c : WhatsAppClient) (hl : m.sessions.lookup u = some c) :
    m.destroySession d u clear
      = ({ m with sessions := m.sessions.filter (fun p => !(p.1 == u)) },
          (c.disconnect d clear).2) := by
  unfold SessionManager.destroySession
  rw [hl]

theorem hasSession_eq_false_iff_lookup (m : SessionManager) (u : Nat) :
    m.hasSession u = false ↔ m.sessions.lookup u = none := by
  unfold SessionManager.hasSession
  cases m.sessions.lookup u <;> simp

theorem clearSessionFiles_entries_subset (u : Nat) (d : Disk)
    (e : DirEntry) (he : e ∈ (clearSessionFiles u d).entries) :
    e ∈ d.entries := by
  unfold clearSessionFiles at he
  cases hc : (d.rootExists
      && d.entries.any fun x => x.name == sessionDirName u) with
  | true =>
      rw [hc] at he
      simp only [if_true] at he
      exact (List.mem_filter.mp he).1
  | false =>
      rw [hc] at he
      simpa using he

theorem clearSessionFiles_not_target (u : Nat) (d : Disk) (e : DirEntry)
    (hwf : d.rootExists = false → d.entries = [])
    (he : e ∈ (clearSessionFiles u d).entries) :
    e.name ≠ sessionDirName u := by
  intro hname
  unfold clearSessionFiles at he
  cases hc : (d.rootExists
      && d.entries.any fun x => x.name == sessionDirName u) with
  | true =>
      rw [hc] at he
      simp only [if_true] at he
      have := (List.mem_filter.mp he).2
      simp [hname] at this
  | false =>
      rw [hc] at he
      simp only [Bool.false_eq_true, if_false] at he
      rcases Bool.and_eq_false_iff.mp hc with hroot | hany
      · rw [hwf hroot] at he
        simp at he
      · have := List.any_eq_false.mp hany e he
        simp [hname] at this

/-- Membership in the restoration scan's discovered ids. -/
theorem mem_discoveredIds (d : Disk) (v : Nat) :
    v ∈ discoveredIds d
      ↔ ∃ e ∈ d.entries,
          (e.isDir && sessionDirPat.isPrefixOf e.name.data) = true
          ∧ discoverUserId e.name = some v := by
  unfold discoveredIds
  rw [List.mem_filterMap]
  constructor
  · rintro ⟨e, he, hdisc⟩
    have hm := List.mem_filter.mp he
    exact ⟨e, hm.1, hm.2, hdisc⟩
  · rintro ⟨e, he, hcond, hdisc⟩
    exact ⟨e, List.mem_filter.mpr ⟨he, hcond⟩, hdisc⟩

/-- C5: `destroySession(userId, clearCredentials=true)` on an untracked id
leaves the registry as it was, completes successfully (the operation is
total), and afterwards no entry of the sessions directory carries the
user's credential-artifact name. -/
theorem C5_destroy_untracked_clears_disk (m : SessionManager) (d : Disk)
    (u : Nat) (h : m.hasSession u = false)
    (hwf : d.rootExists = false → d.entries = []) :
    (m.destroySession d u true).1 = m
    ∧ (m.destroySession d u true).2 = clearSessionFiles u d
    ∧ ∀ e ∈ (m.destroySession d u true).2.entries,
        e.name ≠ sessionDirName u := by
  have hl := (hasSession_eq_false_iff_lookup m u).mp h
  rw [destroySession_of_untracked m d u true hl]
  refine ⟨rfl, rfl, ?_⟩
  intro e he
  exact clearSessionFiles_not_target u d e hwf he

/-- Witness for C5: user 7 untracked, two artifacts on disk; the
`session-user-7` directory is gone afterwards. -/
theorem C5_witness :
    ((SessionManager.mk [] "http://backend").destroySession
        (Disk.mk true [DirEntry.mk "session-user-7" true,
          DirEntry.mk "session-user-8" true]) 7 true).1
      = SessionManager.mk [] "http://backend"
    ∧ ∀ e ∈ ((SessionManager.mk [] "http://backend").destroySession
        (Disk.mk true [DirEntry.mk "session-user-7" true,
          DirEntry.mk "session-user-8" true]) 7 true).2.entries,
        e.name ≠ sessionDirName 7 := by
  have h := C5_destroy_untracked_clears_disk
    (SessionManager.mk [] "http://backend")
    (Disk.mk true [DirEntry.mk "session-user-7" true,
      DirEntry.mk "session-user-8" true]) 7 rfl (by decide)
  exact ⟨h.1, h.2.2⟩

/-- C6: after `destroySession(userId, clearCredentials=true)`, a
`restoreSessions()` pass does not recreate the session: with the user's
credential directory removed, the scan cannot discover the identifier
(assuming every disk entry parsing to this user is its canonical
`session-user-` directory, which is all the system ever creates). -/
theorem C6_destroy_then_restore (m : SessionManager) (d : Disk) (u : Nat)
    (init : Nat → Except String Unit)
    (hkey : ∀ c, m.sessions.lookup u = some c → c.userId = u)
    (hwf : d.rootExists = false → d.entries = [])
    (hcanon : ∀ e ∈ d.entries, discoverUserId e.name = some u →
        e.name = sessionDirName u) :
    (((m.destroySession d u true).1).restoreSessions
        (m.destroySession d u true).2 init).1.hasSession u = false := by
  have hm1 : ((m.destroySession d u true).1).hasSession u = false :=
    hasSession_destroySession_self m d u true
  have hd1 : (m.destroySession d u true).2 = clearSessionFiles u d := by
    cases hl : m.sessions.lookup u with
    | none =>
        rw [destroySession_of_untracked m d u true hl]
        rfl
    | some c =>
        rw [destroySession_of_tracked m d u true c hl]
        show (c.disconnect d true).2 = clearSessionFiles u d
        unfold WhatsAppClient.disconnect
        rw [hkey c hl]
        rfl
  rw [hd1]
  unfold SessionManager.restoreSessions
  by_cases hroot : (clearSessionFiles u d).rootExists
  · rw [if_pos hroot]
    apply hasSession_foldl_create_of_not_mem
    · intro hmem
      obtain ⟨e, he, _, hdisc⟩ :=
        (mem_discoveredIds (clearSessionFiles u d) u).mp hmem
      have hsub := clearSessionFiles_entries_subset u d e he
      have hname := hcanon e hsub hdisc
      exact clearSessionFiles_not_target u d e hwf he hname
    · exact hm1
  · rw [if_neg hroot]
    exact hm1

/-- Witness for C6: user 7 tracked with its artifact on disk; after
destroy-with-clear and a restore pass it is not tracked. -/
theorem C6_witness :
    (((SessionManager.mk [(7, WhatsAppClient.new 7 "http://backend")]
          "http://backend").destroySession
        (Disk.mk true [DirEntry.mk "session-user-7" true]) 7 true).1.restoreSessions
      ((SessionManager.mk [(7, WhatsAppClient.new 7 "http://backend")]
          "http://backend").destroySession
        (Disk.mk true [DirEntry.mk "session-user-7" true]) 7 true).2
      (fun _ => Except.ok ())).1.hasSession 7 = false := by
  apply C6_destroy_then_restore
  · intro c hc
    have hc' : some (WhatsAppClient.new 7 "http://backend") = some c := hc
    cases Option.some.inj hc'
    rfl
  · intro hroot
    cases hroot
  · decide

/-! ## The restoration parse: leftmost-match characterization (C10) -/

theorem leadingDigits_isEmpty_eq_false_iff (l : List Char) :
    (leadingDigits l).isEmpty = false
      ↔ ∃ c, l.head? = some c ∧ c.isDigit = true := by
  cases l with
  | nil => simp [leadingDigits]
  | cons a as =>
      simp only [leadingDigits, List.takeWhile_cons, List.head?_cons]
      by_cases h : a.isDigit = true
      · simp [h]
      · simp only [h, if_false]
        simp [h]

theorem sessionMatchAt_eq_some_iff (l ds : List Char) :
    sessionMatchAt l = some ds
      ↔ sessionOccursAt l 0
        ∧ ds = leadingDigits (l.drop sessionDirPat.length) := by
  unfold sessionMatchAt sessionOccursAt
  rw [List.drop_zero, Nat.zero_add]
  by_cases hp : sessionDirPat.isPrefixOf l = true
  · rw [if_pos hp]
    have hp' : sessionDirPat <+: l := List.isPrefixOf_iff_prefix.mp hp
    by_cases hd : (leadingDigits (l.drop sessionDirPat.length)).isEmpty = true
    · rw [if_pos hd]
      constructor
      · intro h
        exact absurd h (by simp)
      · rintro ⟨⟨_, hex⟩, _⟩
        have := (leadingDigits_isEmpty_eq_false_iff
          (l.drop sessionDirPat.length)).mpr hex
        rw [hd] at this
        cases this
    · rw [if_neg hd]
      rw [Bool.not_eq_true] at hd
      have hex := (leadingDigits_isEmpty_eq_false_iff
        (l.drop sessionDirPat.length)).mp hd
      constructor
      · intro h
        exact ⟨⟨hp', hex⟩, (Option.some.inj h).symm⟩
      · rintro ⟨_, hds⟩
        rw [hds]
  · rw [if_neg hp]
    constructor
    · intro h
      exact absurd h (by simp)
    · rintro ⟨⟨hpre, _⟩, _⟩
      exact absurd ( List.isPrefixOf_iff_prefix.mpr hpre) hp

theorem sessionOccursAt_cons_succ (c : Char) (cs : List Char) (i : Nat) :
    sessionOccursAt (c :: cs) (i + 1) ↔ sessionOccursAt cs i := by
  unfold sessionOccursAt
  have h1 : (c :: cs).drop (i + 1) = cs.drop i := List.drop_succ_cons
  have h2 : (c :: cs).drop (i + 1 + sessionDirPat.length)
      = cs.drop (i + sessionDirPat.length) := by
    have heq : i + 1 + sessionDirPat.length
        = (i + sessionDirPat.length) + 1 := by omega
    rw [heq, List.drop_succ_cons]
  rw [h1, h2]

theorem sessionMatch_eq_some_iff (l ds : List Char) :
    sessionMatch l = some ds
      ↔ ∃ i, sessionOccursAt l i
          ∧ (∀ j, j < i → ¬ sessionOccursAt l j)
          ∧ ds = leadingDigits (l.drop (i + sessionDirPat.length)) := by
  induction l with
  | nil =>
      simp only [sessionMatch]
      constructor
      · intro h
        exact absurd h (by simp)
      · rintro ⟨i, ⟨hpre, _⟩, _, _⟩
        rw [List.drop_nil] at hpre
        have := List.prefix_nil.mp hpre
        have hne : sessionDirPat ≠ [] := by decide
        exact absurd this hne
  | cons c cs ih =>
      cases hma : sessionMatchAt (c :: cs) with
      | some ds0 =>
          have hstep : sessionMatch (c :: cs) = some ds0 := by
            simp [sessionMatch, hma]
          rw [hstep]
          have h0 := (sessionMatchAt_eq_some_iff (c :: cs) ds0).mp hma
          constructor
          · intro h
            cases Option.some.inj h
            refine ⟨0, h0.1, ?_, ?_⟩
            · intro j hj
              exact absurd hj (Nat.not_lt_zero j)
            · rw [Nat.zero_add]
              exact h0.2
          · rintro ⟨i, hocc, hmin, hds⟩
            have hi0 : i = 0 := by
              by_contra hne
              exact hmin 0 (Nat.pos_of_ne_zero hne) h0.1
            subst hi0
            rw [Nat.zero_add] at hds
            rw [hds, ← h0.2]
      | none =>
          have hstep : sessionMatch (c :: cs) = sessionMatch cs := by
            simp [sessionMatch, hma]
          rw [hstep, ih]
          have hnot0 : ¬ sessionOccursAt (c :: cs) 0 := by
            intro h0
            have hds0 : sessionMatchAt (c :: cs)
                = some (leadingDigits ((c :: cs).drop sessionDirPat.length)) :=
              (sessionMatchAt_eq_some_iff _ _).mpr ⟨h0, rfl⟩
            rw [hma] at hds0
            cases hds0
          constructor
          · rintro ⟨i, hocc, hmin, hds⟩
            refine ⟨i + 1, (sessionOccursAt_cons_succ c cs i).mpr hocc, ?_, ?_⟩
            · intro j hj
              cases j with
              | zero => exact fun hc => hnot0 hc
              | succ j' =>
                  intro hc
                  exact hmin j' (Nat.lt_of_succ_lt_succ hj)
                    ((sessionOccursAt_cons_succ c cs j').mp hc)
            · rw [hds]
              have heq : i + 1 + sessionDirPat.length
                  = (i + sessionDirPat.length) + 1 := by omega
              rw [heq, List.drop_succ_cons]
          · rintro ⟨i, hocc, hmin, hds⟩
            cases i with
            | zero => exact absurd hocc hnot0
            | succ i' =>
                refine ⟨i', (sessionOccursAt_cons_succ c cs i').mp hocc,
                  ?_, ?_⟩
                · intro j hj hc
                  exact hmin (j + 1) (Nat.succ_lt_succ hj)
                    ((sessionOccursAt_cons_succ c cs j).mpr hc)
                · rw [hds]
                  have heq : i' + 1 + sessionDirPat.length
                      = (i' + sessionDirPat.length) + 1 := by omega
                  rw [heq, List.drop_succ_cons]

/-- C10 counterexample: `session-user-x9` starts with the prefix and
contains the digit sequence `9` after it, so the claim's rule would
restore it as user 9; the code's regex requires a digit immediately after
the `session-user-` literal, matches nothing here, and the scan discovers
no user from a disk holding exactly this directory. -/
theorem C10_counterexample :
    claimDiscoverUserId "session-user-x9" = some 9
    ∧ discoverUserId "session-user-x9" = none
    ∧ discoveredIds (Disk.mk true [DirEntry.mk "session-user-x9" true])
        = [] := by
  refine ⟨by decide, by decide, by decide⟩

/-- C10 amended: a name is parsed by the restoration scan exactly when the
literal `session-user-` occurs in it immediately followed by a digit, the
restored id being the decimal value of the maximal digit run after the
leftmost such occurrence; the scan then restores precisely the directory
entries whose name starts with the prefix and parses this way (so
`session-user-12abc` restores as 12, while a digit merely appearing later
in the name, as in `session-user-x9`, restores nothing). -/
theorem C10_amended_leftmost (name : String) (n : Nat) (d : Disk) :
    (discoverUserId name = some n
      ↔ ∃ i, sessionOccursAt name.data i
          ∧ (∀ j, j < i → ¬ sessionOccursAt name.data j)
          ∧ n = digitsToNat (leadingDigits (name.data.drop
              (i + sessionDirPat.length))))
    ∧ (n ∈ discoveredIds d
      ↔ ∃ e ∈ d.entries,
          (e.isDir && sessionDirPat.isPrefixOf e.name.data) = true
          ∧ discoverUserId e.name = some n) := by
  refine ⟨?_, mem_discoveredIds d n⟩
  unfold discoverUserId
  rw [Option.map_eq_some']
  constructor
  · rintro ⟨ds, hm, hn⟩
    obtain ⟨i, hocc, hmin, hds⟩ := (sessionMatch_eq_some_iff name.data ds).mp hm
    refine ⟨i, hocc, hmin, ?_⟩
    rw [← hn, hds]
  · rintro ⟨i, hocc, hmin, hn⟩
    exact ⟨leadingDigits (name.data.drop (i + sessionDirPat.length)),
      (sessionMatch_eq_some_iff _ _).mpr ⟨i, hocc, hmin, rfl⟩, hn.symm⟩

end WhatsAppService
